import Mathlib

/-!
# Verification of the template variable-substitution engine

Shallow embedding of `src/utils/builtins.ts` and `src/utils/variables.ts`:
the expression parser, the builtin registry and resolvers (time, uuid,
random), and the iterative substitution engine.

Modelling conventions:
* JavaScript strings are modelled as Lean `String` / `List Char`
  (the sources only manipulate ASCII, where UTF-16 code units coincide
  with characters).
* A JS `Date` is modelled by its timestamp: milliseconds since the Unix
  epoch as an unbounded `Int`; civil (calendar) conversions follow the
  proleptic Gregorian calendar exactly as ECMAScript specifies.  The
  runtime's local timezone is modelled as UTC with no DST, so the
  local-time field getters/setters coincide with the UTC ones.
* The ambient effects (`new Date()`, `Math.random()`) are injected as an
  explicit environment: a clock reading in milliseconds, a rational
  random draw in `[0,1)` for the random resolver, and a stream of
  16-way draws (`(Math.random()*16)|0`) for the uuid resolver.
* `Record<string, string>` is modelled as a finite association list
  with `in` = key membership and indexing = first-binding lookup.
-/

namespace TopicLab

/-! ## Small string helpers -/

/-- The decimal digit character for `n < 10` (used to render numbers). -/
def digitChar (n : Nat) : Char := Char.ofNat (48 + n)

/-- JS `toLowerCase()` (character-wise ASCII lowering; `String.toLower`
itself is avoided because its `mapAux` does not reduce in the kernel). -/
def toLowerStr (s : String) : String := String.mk (s.data.map Char.toLower)

/-- Decimal digits of a natural number, most significant first
(fuel-structured so everything reduces by `rfl`/`decide`). -/
def natDigitsAux : Nat → Nat → List Char → List Char
  | 0, _, acc => acc
  | fuel + 1, n, acc =>
    if n < 10 then digitChar n :: acc
    else natDigitsAux fuel (n / 10) (digitChar (n % 10) :: acc)

/-- Decimal representation of a natural number as characters. -/
def natDigits (n : Nat) : List Char := natDigitsAux (n + 1) n []

/-- Render `n` in decimal, left-padded with `'0'` to width `w`
(the `pad` helper of `formatCustom`, and the ISO component padding). -/
def padNat (w : Nat) (n : Nat) : List Char :=
  let ds := natDigits n
  List.replicate (w - ds.length) '0' ++ ds

/-- Decimal rendering of an integer (JS `Number.prototype.toString` on
integral values). -/
def intDigits (n : Int) : List Char :=
  if n < 0 then '-' :: natDigits n.natAbs else natDigits n.natAbs

/-- Numeric value of a list of decimal digit characters
(JS `parseInt` on an all-digits string). -/
def digitsToNat (ds : List Char) : Nat :=
  ds.foldl (fun acc c => acc * 10 + (c.toNat - 48)) 0

/-! ## Civil (Gregorian) date arithmetic on epoch milliseconds -/

def msPerDay : Int := 86400000

/-- Days since the epoch of civil date `(y, m, d)` with `m ∈ [1,12]`;
`d` may lie outside the month and is carried (as JS `Date` does). -/
def daysFromCivil (y m d : Int) : Int :=
  let y' := if m ≤ 2 then y - 1 else y
  let era := y'.fdiv 400
  let yoe := y' - era * 400
  let mp := if m > 2 then m - 3 else m + 9
  let doy := (153 * mp + 2).ediv 5
  let doe := yoe * 365 + yoe.ediv 4 - yoe.ediv 100 + doy
  era * 146097 + doe - 719468 + (d - 1)

/-- Civil date `(y, m, d)` (with `m ∈ [1,12]`) of a day count since the
epoch. -/
def civilFromDays (z : Int) : Int × Int × Int :=
  let z' := z + 719468
  let era := z'.fdiv 146097
  let doe := z' - era * 146097
  let yoe := (doe - doe.ediv 1460 + doe.ediv 36524 - doe.ediv 146096).ediv 365
  let y := yoe + era * 400
  let doy := doe - (365 * yoe + yoe.ediv 4 - yoe.ediv 100)
  let mp := (5 * doy + 2).ediv 153
  let d := doy - (153 * mp + 2).ediv 5 + 1
  let m := if mp < 10 then mp + 3 else mp - 9
  (if m ≤ 2 then y + 1 else y, m, d)

/-- Day count (`getTime() / msPerDay`, floored) of a timestamp. -/
def epochDays (ms : Int) : Int := ms.fdiv msPerDay

/-- Milliseconds elapsed since local midnight (timezone modelled as UTC). -/
def timeOfDay (ms : Int) : Int := ms.emod msPerDay

/-- Timestamp of civil `(y, m0, d)` (0-based month `m0`, both `m0` and
`d` may overflow and are carried exactly as the JS `Date` setters do)
at `tod` milliseconds past midnight. -/
def civilToMs (y : Int) (m0 : Int) (d : Int) (tod : Int) : Int :=
  let y' := y + m0.fdiv 12
  let m := m0.emod 12 + 1
  (daysFromCivil y' m d) * msPerDay + tod

def getUTCFullYear (ms : Int) : Int := (civilFromDays (epochDays ms)).1
def getUTCMonth1 (ms : Int) : Int := (civilFromDays (epochDays ms)).2.1
def getUTCDate (ms : Int) : Int := (civilFromDays (epochDays ms)).2.2
def getUTCHours (ms : Int) : Int := (timeOfDay ms).ediv 3600000
def getUTCMinutes (ms : Int) : Int := ((timeOfDay ms).emod 3600000).ediv 60000
def getUTCSeconds (ms : Int) : Int := ((timeOfDay ms).emod 60000).ediv 1000
def getUTCMilliseconds (ms : Int) : Int := (timeOfDay ms).emod 1000

/-- Local-time getters: the runtime's local timezone is modelled as UTC
(no DST), so they coincide with the UTC getters. -/
def getFullYear (ms : Int) : Int := getUTCFullYear ms
def getMonth1 (ms : Int) : Int := getUTCMonth1 ms
def getDate (ms : Int) : Int := getUTCDate ms
def getHours (ms : Int) : Int := getUTCHours ms
def getMinutes (ms : Int) : Int := getUTCMinutes ms
def getSeconds (ms : Int) : Int := getUTCSeconds ms
def getMilliseconds (ms : Int) : Int := getUTCMilliseconds ms

/-- `setSeconds(s)`: replace the seconds field, keeping the
millisecond-of-second, with carry (JS normalization). -/
def setSeconds (ms s : Int) : Int := ms - getSeconds ms * 1000 + s * 1000

/-- `setMinutes(m)`: replace the minutes field with carry. -/
def setMinutes (ms m : Int) : Int := ms - getMinutes ms * 60000 + m * 60000

/-- `setHours(h)`: replace the hours field with carry. -/
def setHours (ms h : Int) : Int := ms - getHours ms * 3600000 + h * 3600000

/-- `setDate(d)`: replace the day-of-month field with carry. -/
def setDate (ms d : Int) : Int :=
  let c := civilFromDays (epochDays ms)
  civilToMs c.1 (c.2.1 - 1) d (timeOfDay ms)

/-- `setMonth(n)`: replace the (0-based) month field; day-of-month kept
and carried into the next month when it overflows. -/
def setMonth (ms n : Int) : Int :=
  let c := civilFromDays (epochDays ms)
  civilToMs c.1 n c.2.2 (timeOfDay ms)

/-- `setFullYear(y)`: replace the year field. -/
def setFullYear (ms y : Int) : Int :=
  let c := civilFromDays (epochDays ms)
  civilToMs y (c.2.1 - 1) c.2.2 (timeOfDay ms)

/-! ## ISO-8601 rendering (`Date.prototype.toISOString`) -/

/-- Year component of the ISO string: four digits for years 0–9999,
ECMAScript expanded form (`±` and six digits) outside that range. -/
def isoYear (y : Int) : List Char :=
  if y < 0 then '-' :: padNat 6 (-y).toNat
  else if y > 9999 then '+' :: padNat 6 y.toNat
  else padNat 4 y.toNat

/-- The `YYYY-MM-DD` date part of the ISO string
(`toISOString().split('T')[0]`). -/
def isoDatePart (ms : Int) : List Char :=
  isoYear (getUTCFullYear ms) ++ '-' :: padNat 2 (getUTCMonth1 ms).toNat
    ++ '-' :: padNat 2 (getUTCDate ms).toNat

/-- The `HH:mm:ss` time part of the ISO string
(`toISOString().split('T')[1].split('.')[0]`). -/
def isoTimePart (ms : Int) : List Char :=
  padNat 2 (getUTCHours ms).toNat ++ ':' :: padNat 2 (getUTCMinutes ms).toNat
    ++ ':' :: padNat 2 (getUTCSeconds ms).toNat

/-- `date.toISOString()`: `YYYY-MM-DDTHH:mm:ss.sssZ` (always UTC). -/
def toISOString (ms : Int) : String :=
  String.mk (isoDatePart ms ++ 'T' :: isoTimePart ms
    ++ '.' :: padNat 3 (getUTCMilliseconds ms).toNat ++ ['Z'])

/-- JS `String.prototype.replace` with a plain-string pattern: replace
the first occurrence only. -/
def replaceFirst : List Char → List Char → List Char → List Char
  | [], _, _ => []
  | c :: cs, pat, rep =>
    if pat.isPrefixOf (c :: cs) then rep ++ (c :: cs).drop pat.length
    else c :: replaceFirst cs pat rep

/-! ## `builtins.ts` -/

/-- Offset units recognized by `OFFSET_PATTERN = /^([+-])(\d+)([smhdwMy])$/`. -/
def offsetUnits : List Char := ['s', 'm', 'h', 'd', 'w', 'M', 'y']

/-- `parseOffset`: matches `^([+-])(\d+)([smhdwMy])$`, returning the
signed amount (`parseInt(amount) * (sign === '-' ? -1 : 1)`) and unit. -/
def parseOffset (modifier : String) : Option (Int × Char) :=
  match modifier.data with
  | [] => none
  | sign :: rest =>
    if sign = '+' ∨ sign = '-' then
      let ds := rest.dropLast
      match rest.getLast? with
      | some unit =>
        if ds ≠ [] ∧ ds.all Char.isDigit ∧ unit ∈ offsetUnits then
          some ((if sign = '-' then -(digitsToNat ds : Int) else (digitsToNat ds : Int)), unit)
        else none
      | none => none
    else none

/-- `applyOffset`: shift the date by the given amount of the given unit
through the JS field setters (calendar-aware for `M` and `y`). -/
def applyOffset (ms : Int) (offset : Int × Char) : Int :=
  let amount := offset.1
  match offset.2 with
  | 's' => setSeconds ms (getSeconds ms + amount)
  | 'm' => setMinutes ms (getMinutes ms + amount)
  | 'h' => setHours ms (getHours ms + amount)
  | 'd' => setDate ms (getDate ms + amount)
  | 'w' => setDate ms (getDate ms + amount * 7)
  | 'M' => setMonth ms ((getMonth1 ms - 1) + amount)
  | 'y' => setFullYear ms (getFullYear ms + amount)
  | _ => ms

inductive TZ | utc | loc
deriving DecidableEq, Repr

inductive TimeFormat | iso | unix | unixms | date | time | datetime
deriving DecidableEq, Repr

structure ParsedModifiers where
  offset : Option (Int × Char) := none
  timezone : Option TZ := none
  format : Option TimeFormat := none
  customFormat : Option String := none
deriving DecidableEq, Repr

/-- One iteration of the `parseModifiers` loop body on modifier `mod`. -/
def parseModifierStep (acc : ParsedModifiers) (mod : String) : ParsedModifiers :=
  if toLowerStr mod = "utc" then { acc with timezone := some TZ.utc }
  else if toLowerStr mod = "local" then { acc with timezone := some TZ.loc }
  else if toLowerStr mod = "iso" then { acc with format := some TimeFormat.iso }
  else if toLowerStr mod = "unix" then { acc with format := some TimeFormat.unix }
  else if toLowerStr mod = "unixms" then { acc with format := some TimeFormat.unixms }
  else if toLowerStr mod = "date" then { acc with format := some TimeFormat.date }
  else if toLowerStr mod = "time" then { acc with format := some TimeFormat.time }
  else if toLowerStr mod = "datetime" then { acc with format := some TimeFormat.datetime }
  else if "fmt:".data.isPrefixOf mod.data then
    { acc with customFormat := some (String.mk (mod.data.drop 4)) }
  else
    match parseOffset mod with
    | some offset => { acc with offset := some offset }
    | none => acc

def parseModifiersAux (acc : ParsedModifiers) : List String → ParsedModifiers
  | [] => acc
  | mod :: mods => parseModifiersAux (parseModifierStep acc mod) mods

/-- `parseModifiers`: fold the recognition loop over the modifier list
(later recognized tokens of the same kind overwrite earlier ones). -/
def parseModifiers (modifiers : List String) : ParsedModifiers :=
  parseModifiersAux {} modifiers

/-- `toLocaleDateString('en-CA')`: `YYYY-MM-DD` of the local date
(local timezone modelled as UTC). -/
def toLocaleDateStringEnCA (ms : Int) : List Char := isoDatePart ms

/-- `toLocaleTimeString('en-GB', {hour12:false})`: `HH:mm:ss` of the
local time (local timezone modelled as UTC). -/
def toLocaleTimeStringEnGB (ms : Int) : List Char := isoTimePart ms

/-- `formatDate`: render a timestamp in one of the preset formats. -/
def formatDate (ms : Int) (format : TimeFormat) (useUtc : Bool) : String :=
  match format with
  | TimeFormat.unix => String.mk (intDigits ((ms : Int).fdiv 1000))
  | TimeFormat.unixms => String.mk (intDigits ms)
  | TimeFormat.date =>
    if useUtc then String.mk (isoDatePart ms) else String.mk (toLocaleDateStringEnCA ms)
  | TimeFormat.time =>
    if useUtc then String.mk (isoTimePart ms) else String.mk (toLocaleTimeStringEnGB ms)
  | TimeFormat.datetime =>
    if useUtc then String.mk (isoDatePart ms ++ ' ' :: isoTimePart ms)
    else String.mk (toLocaleDateStringEnCA ms ++ ' ' :: toLocaleTimeStringEnGB ms)
  | TimeFormat.iso =>
    if useUtc then toISOString ms
    else String.mk (replaceFirst (toISOString ms).data ['Z'] [])

/-- `formatCustom`: sequential single-first-occurrence token replacement
(`YYYY, YY, MM, M, DD, D, HH, H, mm, ss, SSS` in this order). -/
def formatCustom (ms : Int) (pattern : String) (useUtc : Bool) : String :=
  let year := if useUtc then getUTCFullYear ms else getFullYear ms
  let month := if useUtc then getUTCMonth1 ms else getMonth1 ms
  let day := if useUtc then getUTCDate ms else getDate ms
  let hours := if useUtc then getUTCHours ms else getHours ms
  let minutes := if useUtc then getUTCMinutes ms else getMinutes ms
  let seconds := if useUtc then getUTCSeconds ms else getSeconds ms
  let msec := if useUtc then getUTCMilliseconds ms else getMilliseconds ms
  let r := fun (s pat rep : List Char) => replaceFirst s pat rep
  String.mk <| r (r (r (r (r (r (r (r (r (r (r pattern.data
    "YYYY".data (intDigits year))
    "YY".data (padNat 2 (year.emod 100).toNat))
    "MM".data (padNat 2 month.toNat))
    "M".data (intDigits month))
    "DD".data (padNat 2 day.toNat))
    "D".data (intDigits day))
    "HH".data (padNat 2 hours.toNat))
    "H".data (intDigits hours))
    "mm".data (padNat 2 minutes.toNat))
    "ss".data (padNat 2 seconds.toNat))
    "SSS".data (padNat 3 msec.toNat)

/-- `handleNow`: parse modifiers, apply the (single, net) offset, then
render with the custom pattern if present (and non-empty: JS truthiness),
else the preset format, else ISO. -/
def handleNow (modifiers : List String) (nowMs : Int) : String :=
  let parsed := parseModifiers modifiers
  let date := match parsed.offset with
    | some offset => applyOffset nowMs offset
    | none => nowMs
  let useUtc := parsed.timezone = some TZ.utc
  match parsed.customFormat with
  | some p => if p ≠ "" then formatCustom date p useUtc
              else formatDate date (parsed.format.getD TimeFormat.iso) useUtc
  | none => formatDate date (parsed.format.getD TimeFormat.iso) useUtc

/-- Lowercase hexadecimal digit of `v` (`v.toString(16)` for `v < 16`). -/
def hexChar (v : Nat) : Char :=
  if v < 10 then digitChar v else Char.ofNat (87 + v)

/-- The replacement loop of `handleUuid` over the template characters;
`k` indexes the stream of random draws (`(Math.random() * 16) | 0`),
one draw consumed per `x`/`y` character. -/
def uuidAux (draws : Nat → Fin 16) : List Char → Nat → List Char
  | [], _ => []
  | c :: cs, k =>
    if c = 'x' then hexChar (draws k) :: uuidAux draws cs (k + 1)
    else if c = 'y' then
      hexChar (Nat.lor (Nat.land (draws k) 3) 8) :: uuidAux draws cs (k + 1)
    else c :: uuidAux draws cs k

/-- `handleUuid`: fill `xxxxxxxx-xxxx-4xxx-yxxx-xxxxxxxxxxxx` with random
hex digits; `y` becomes `(r & 0x3) | 0x8`.  The modifier list is accepted
(the registry passes it) and ignored. -/
def handleUuid (_modifiers : List String) (draws : Nat → Fin 16) : String :=
  String.mk (uuidAux draws "xxxxxxxx-xxxx-4xxx-yxxx-xxxxxxxxxxxx".data 0)

/-- The range test of `handleRandom`: does the modifier match
`^(\d+)-(\d+)$`?  If so return `(parseInt(min), parseInt(max))`. -/
def rangeMatch (mod : String) : Option (Int × Int) :=
  match mod.data.splitOn '-' with
  | [ds1, ds2] =>
    if ds1 ≠ [] ∧ ds1.all Char.isDigit ∧ ds2 ≠ [] ∧ ds2.all Char.isDigit then
      some ((digitsToNat ds1 : Int), (digitsToNat ds2 : Int))
    else none
  | _ => none

/-- The scan of `handleRandom` over the modifiers: default range
`[0,100]`, overridden by the first modifier matching the range pattern
(`break` on first match). -/
def randRange : List String → Int × Int
  | [] => (0, 100)
  | mod :: mods =>
    match rangeMatch mod with
    | some r => r
    | none => randRange mods

/-- The integer chosen by `handleRandom` for a draw `r` of
`Math.random()`: `Math.floor(r * (max - min + 1) + min)`. -/
def handleRandomVal (modifiers : List String) (r : ℚ) : Int :=
  let range := randRange modifiers
  ⌊r * ((range.2 : ℚ) - (range.1 : ℚ) + 1) + (range.1 : ℚ)⌋

/-- `handleRandom`: decimal rendering of the chosen integer. -/
def handleRandom (modifiers : List String) (r : ℚ) : String :=
  String.mk (intDigits (handleRandomVal modifiers r))

/-! ## Builtin registry -/

/-- The keys of `BUILTIN_HANDLERS`, in declaration order. -/
def builtinNames : List String := ["now", "timestamp", "uuid", "random", "rand"]

/-- `isBuiltinVariable(name)`: `name in BUILTIN_HANDLERS` — an exact
(case-sensitive) key-membership test. -/
def isBuiltinVariable (name : String) : Bool := name ∈ builtinNames

/-- `getBuiltinNames()`. -/
def getBuiltinNames : List String := builtinNames

/-- The injected ambient effects of one resolution: the current clock
reading, the `Math.random()` draw used by `handleRandom`, and the
16-way draw stream used by `handleUuid`. -/
structure Env where
  nowMs : Int
  rand : ℚ
  uuidDraws : Nat → Fin 16

/-- `resolveBuiltin(name, modifiers)`: look the *lowercased* name up in
`BUILTIN_HANDLERS` and run its handler; `null` when absent. -/
def resolveBuiltin (name : String) (modifiers : List String) (env : Env) : Option String :=
  let lower := toLowerStr name
  if lower = "now" ∨ lower = "timestamp" then some (handleNow modifiers env.nowMs)
  else if lower = "uuid" then some (handleUuid modifiers env.uuidDraws)
  else if lower = "random" ∨ lower = "rand" then some (handleRandom modifiers env.rand)
  else none

/-- JS `split(':')` on the character list (list of `:`-free segments;
never empty). -/
def splitOnColon : List Char → List (List Char)
  | [] => [[]]
  | c :: cs =>
    if c = ':' then [] :: splitOnColon cs
    else
      match splitOnColon cs with
      | p :: ps => (c :: p) :: ps
      | [] => [[c]]

/-- `parseVariableExpression`: split the expression on every `:`; the
first segment is the name, the rest are the modifiers. -/
def parseVariableExpression (expression : String) : String × List String :=
  let parts := (splitOnColon expression.data).map String.mk
  (parts.headD "", parts.tail)

/-! ## `variables.ts` — the substitution engine -/

/-- The caller-supplied variable map (`Record<string, string>`). -/
def VarMap := List (String × String)

/-- `name in variables` (key membership). -/
def hasVar (vars : VarMap) (name : String) : Bool :=
  (List.any vars fun p => p.1 = name)

/-- `variables[name]` (first binding; only used under `hasVar`). -/
def getVar (vars : VarMap) (name : String) : String :=
  match List.find? (fun p => p.1 = name) vars with
  | some p => p.2
  | none => ""

/-- `[a-zA-Z_]`, the first character of a variable name. -/
def isNameStart (c : Char) : Bool := c.isAlpha || c = '_'

/-- `[a-zA-Z0-9_]`, the following characters of a variable name. -/
def isNameChar (c : Char) : Bool := isNameStart c || c.isDigit

/-- Attempt to match the expression pattern
`([a-zA-Z_][a-zA-Z0-9_]*(?::[^}]+)?)\}` against the characters following
an opening `{`.  On success returns the name (capture group of
`extractVariableNames`' regex), the full expression (capture group of
`substituteVariables`' regex) and the remaining characters after `}`. -/
def matchExpr (cs : List Char) : Option (List Char × List Char × List Char) :=
  match cs with
  | [] => none
  | c :: cs' =>
    if isNameStart c then
      let name := c :: cs'.takeWhile isNameChar
      match cs'.dropWhile isNameChar with
      | '}' :: rest => some (name, name, rest)
      | ':' :: rest =>
        let modChars := rest.takeWhile (fun ch => ch ≠ '}')
        if modChars = [] then none
        else
          match rest.dropWhile (fun ch => ch ≠ '}') with
          | '}' :: rest' => some (name, name ++ ':' :: modChars, rest')
          | _ => none
      | _ => none
    else none

/-- The replacement callback of the `substituteVariables` regex pass:
builtin lookup first (builtins shadow user variables), then plain
variable lookup when there is no modifier, else the match is kept
verbatim. -/
def substituteMatch (vars : VarMap) (env : Env) (expression : String) : String :=
  let p := parseVariableExpression expression
  let name := p.1
  let modifiers := p.2
  let keep :=
    if modifiers = [] ∧ hasVar vars name = true then getVar vars name
    else "\x7b" ++ expression ++ "\x7d"
  if isBuiltinVariable name then
    match resolveBuiltin name modifiers env with
    | some resolved => resolved
    | none => keep
  else keep

/-- One global-regex replacement pass
(`result.replace(pattern, callback)`): scan left to right; at each `{`
try the expression pattern, replacing on success and continuing after
the match, otherwise keep the character.  Fuel-structured with
`fuel = length` so concrete instances reduce by `rfl`. -/
def passAux (f : List Char → List Char) : Nat → List Char → List Char
  | _, [] => []
  | 0, cs => cs
  | fuel + 1, c :: cs =>
    if c = '{' then
      match matchExpr cs with
      | some (_, expr, rest) => f expr ++ passAux f fuel rest
      | none => c :: passAux f fuel cs
    else c :: passAux f fuel cs

/-- One pass of the substitution loop over the whole template. -/
def onePass (vars : VarMap) (env : Env) (s : String) : String :=
  String.mk (passAux
    (fun expr => (substituteMatch vars env (String.mk expr)).data)
    s.data.length s.data)

/-- The `while (result !== prevResult && iterations < maxIterations)`
loop of `substituteVariables`, counted by remaining iterations. -/
def substLoop (vars : VarMap) (env : Env) : Nat → String → String → String
  | 0, _, result => result
  | n + 1, prevResult, result =>
    if result = prevResult then result
    else substLoop vars env n result (onePass vars env result)

/-- `substituteVariables(template, variables)`: iterate the replacement
pass to a fixed point, capped at 10 passes (`prevResult` starts `''`). -/
def substituteVariables (template : String) (vars : VarMap) (env : Env) : String :=
  substLoop vars env 10 "" template

/-- The `regex.exec` loop of `extractVariableNames`: collect the name
capture of every match, skipping builtins. -/
def extractAux : Nat → List Char → List String
  | _, [] => []
  | 0, _ => []
  | fuel + 1, c :: cs =>
    if c = '{' then
      match matchExpr cs with
      | some (name, _, rest) =>
        if isBuiltinVariable (String.mk name) then extractAux fuel rest
        else String.mk name :: extractAux fuel rest
      | none => extractAux fuel cs
    else extractAux fuel cs

/-- `extractVariableNames(template)`: the non-builtin expression names,
in template order, duplicates preserved. -/
def extractVariableNames (template : String) : List String :=
  extractAux template.data.length template.data

/-- `getMissingVariables(template, variables)`: the used names that are
not keys of the map. -/
def getMissingVariables (template : String) (vars : VarMap) : List String :=
  (extractVariableNames template).filter (fun name => ¬ (hasVar vars name = true))

/-! ## Concrete test fixtures -/

/-- The fixed clock of the test suite: `2024-06-15T10:30:45.123Z`. -/
def fixedClock : Int := civilToMs 2024 5 15 ((10 * 3600 + 30 * 60 + 45) * 1000 + 123)

/-- A deterministic environment at the fixed clock. -/
def fixedEnv : Env := ⟨fixedClock, 1/2, fun _ => ⟨0, by decide⟩⟩

/-- Is `c` a lowercase hexadecimal digit (`[0-9a-f]`)? -/
def isHexLower (c : Char) : Bool :=
  c.isDigit || (97 ≤ c.toNat && c.toNat ≤ 102)

/-! ## Theorems -/

/-- **C6.** With the clock fixed at `2024-06-15T10:30:45.123Z`, the time
resolver returns `"2024-06-15 10:30:45"` for `[utc, datetime]`,
`"2024-06-15 09:30:45"` for `[utc, -1h, datetime]`, `"2024-05-15"` for
`[utc, -1M, date]` and `"2025-06-15"` for `[utc, +1y, date]`: at most
one net offset is applied calendar-aware before rendering with the
preset format. -/
theorem handleNow_fixedClock_presets :
    handleNow ["utc", "datetime"] fixedClock = "2024-06-15 10:30:45" ∧
    handleNow ["utc", "-1h", "datetime"] fixedClock = "2024-06-15 09:30:45" ∧
    handleNow ["utc", "-1M", "date"] fixedClock = "2024-05-15" ∧
    handleNow ["utc", "+1y", "date"] fixedClock = "2025-06-15" := by
  refine ⟨?_, ?_, ?_, ?_⟩ <;> decide

/-- **C2, counterexample.** The builtin membership test does *not*
mirror the case-insensitive resolution lookup: `isBuiltinVariable` is an
exact key test, so `isBuiltinVariable "NOW"` and `isBuiltinVariable
"Rand"` are `false` even though `resolveBuiltin` dispatches both. -/
theorem isBuiltin_not_caseInsensitive :
    isBuiltinVariable "NOW" = false ∧ isBuiltinVariable "Rand" = false ∧
    resolveBuiltin "NOW" [] fixedEnv ≠ none ∧
    resolveBuiltin "Rand" [] fixedEnv ≠ none := by
  refine ⟨rfl, rfl, ?_, ?_⟩ <;> decide

/-- **C2, amended.** The membership test is case-sensitive: for every
name, `isBuiltinVariable name` holds iff `name` is literally one of
`now`, `timestamp`, `uuid`, `random`, `rand`; resolution, by contrast,
lowercases first: `resolveBuiltin` produces a value iff the *lowercased*
name is one of the reserved names. -/
theorem isBuiltin_exact_resolve_lowercased (name : String) (modifiers : List String)
    (env : Env) :
    (isBuiltinVariable name = true ↔
      name = "now" ∨ name = "timestamp" ∨ name = "uuid" ∨
      name = "random" ∨ name = "rand") ∧
    ((resolveBuiltin name modifiers env).isSome = true ↔
      isBuiltinVariable (toLowerStr name) = true) := by
  constructor
  · simp [isBuiltinVariable, builtinNames]
  · unfold resolveBuiltin isBuiltinVariable builtinNames
    rcases h1 : decide (toLowerStr name = "now" ∨ toLowerStr name = "timestamp") with _ | _ <;>
      rcases h2 : decide (toLowerStr name = "uuid") with _ | _ <;>
      rcases h3 : decide (toLowerStr name = "random" ∨ toLowerStr name = "rand") with _ | _ <;>
      simp_all

/-- Segments produced by `split(':')` never contain a colon. -/
theorem splitOnColon_no_colon (cs : List Char) :
    ∀ p ∈ splitOnColon cs, ':' ∉ p := by
  induction cs with
  | nil => intro p hp; simp [splitOnColon] at hp; simp [hp]
  | cons c cs ih =>
    intro p hp
    by_cases hc : c = ':'
    · simp [splitOnColon, hc] at hp
      rcases hp with h | h
      · simp [h]
      · exact ih p h
    · simp only [splitOnColon, if_neg hc] at hp
      rcases hsp : splitOnColon cs with _ | ⟨q, qs⟩
      · rw [hsp] at hp; simp at hp
        intro hmem
        rw [hp] at hmem
        simp at hmem
        exact hc hmem.symm
      · rw [hsp] at hp
        simp at hp
        rcases hp with h | h
        · intro hmem
          rw [h] at hmem
          rcases List.mem_cons.mp hmem with h' | h'
          · exact hc h'.symm
          · exact ih q (by rw [hsp]; exact List.mem_cons_self q qs) h'
        · exact ih p (by rw [hsp]; exact List.mem_cons_of_mem q h)

/-- Modifiers produced by the expression parser never contain a colon
(the split consumed them all). -/
theorem parseVariableExpression_modifiers_no_colon (expression : String) :
    ∀ m ∈ (parseVariableExpression expression).2, ':' ∉ m.data := by
  intro m hm
  unfold parseVariableExpression at hm
  rcases hL : splitOnColon expression.data with _ | ⟨q, qs⟩
  · rw [hL] at hm; simp at hm
  · rw [hL] at hm
    simp only [List.map_cons, List.tail_cons] at hm
    rcases List.mem_map.mp hm with ⟨p, hp, rfl⟩
    exact splitOnColon_no_colon expression.data p
      (by rw [hL]; exact List.mem_cons_of_mem q hp)

/-- A colon-free string cannot carry the `fmt:` prefix. -/
theorem no_colon_not_fmtPrefix (l : List Char) (h : ':' ∉ l) :
    "fmt:".data.isPrefixOf l = false := by
  rcases l with _ | ⟨a, _ | ⟨b, _ | ⟨c, _ | ⟨d, rest⟩⟩⟩⟩ <;>
    simp_all [List.isPrefixOf, String.data]

/-- A string whose first character is `f` is recognized by none of the
timezone/preset-format branches of `parseModifiers` (they all compare
against lowercase literals starting with other letters). -/
theorem fmtHead_not_recognized (m : String) (a : Char) (rest : List Char)
    (hdata : m.data = a :: rest) (ha : a.toLower = 'f') :
    toLowerStr m ≠ "utc" ∧ toLowerStr m ≠ "local" ∧ toLowerStr m ≠ "iso" ∧
    toLowerStr m ≠ "unix" ∧ toLowerStr m ≠ "unixms" ∧ toLowerStr m ≠ "date" ∧
    toLowerStr m ≠ "time" ∧ toLowerStr m ≠ "datetime" := by
  refine ⟨?_, ?_, ?_, ?_, ?_, ?_, ?_, ?_⟩ <;>
  · intro hEq
    have := congrArg String.data hEq
    simp [toLowerStr, hdata] at this
    obtain ⟨h1, -⟩ := this
    rw [ha] at h1
    exact absurd h1 (by decide)

/-- A step of the modifier loop on a modifier without the `fmt:` prefix
leaves `customFormat` untouched. -/
theorem parseModifierStep_customFormat (acc : ParsedModifiers) (m : String)
    (h : "fmt:".data.isPrefixOf m.data = false) :
    (parseModifierStep acc m).customFormat = acc.customFormat := by
  unfold parseModifierStep
  split
  · rfl
  · split
    · rfl
    · split
      · rfl
      · split
        · rfl
        · split
          · rfl
          · split
            · rfl
            · split
              · rfl
              · split
                · rfl
                · split
                  · simp_all
                  · split <;> rfl

/-- The modifier loop leaves `customFormat` untouched when no modifier
carries the `fmt:` prefix. -/
theorem parseModifiersAux_customFormat (mods : List String) (acc : ParsedModifiers)
    (h : ∀ m ∈ mods, "fmt:".data.isPrefixOf m.data = false) :
    (parseModifiersAux acc mods).customFormat = acc.customFormat := by
  induction mods generalizing acc with
  | nil => rfl
  | cons m mods ih =>
    rw [parseModifiersAux, ih _ (fun x hx => h x (List.mem_cons_of_mem m hx)),
      parseModifierStep_customFormat acc m (h m (List.mem_cons_self m mods))]

/-- **C3, counterexample.** End-to-end, `{now:fmt:YYYY}` at the fixed
clock resolves to the default ISO rendering
`2024-06-15T10:30:45.123`, not to the custom-pattern rendering `2024`:
the `fmt:` prefix does not survive the colon split. -/
theorem fmt_pattern_broken_endToEnd :
    substituteVariables "{now:fmt:YYYY}" [] fixedEnv = "2024-06-15T10:30:45.123" ∧
    formatCustom fixedClock "YYYY" false = "2024" ∧
    substituteVariables "{now:fmt:YYYY}" [] fixedEnv ≠ formatCustom fixedClock "YYYY" false := by
  refine ⟨?_, ?_, ?_⟩ <;> decide

/-- **C3, amended.** The expression is split on *every* colon before
modifier recognition, so driven end-to-end no modifier ever retains the
`fmt:` prefix and `customFormat` is never set — `{name:fmt:<pattern>}`
falls back to the preset/default format.  The custom pattern (verbatim,
colons included) takes effect only when a modifier of the literal form
`fmt:<pattern>` is handed pre-split to the resolver, as in
`resolveBuiltin("now", ["utc", "fmt:HH:mm:ss"])`. -/
theorem fmt_onlyDirect_customFormat :
    (∀ expression : String,
      (parseModifiers (parseVariableExpression expression).2).customFormat = none) ∧
    (∀ pattern : String,
      (parseModifiers ["fmt:" ++ pattern]).customFormat = some pattern) ∧
    resolveBuiltin "now" ["utc", "fmt:HH:mm:ss"] fixedEnv = some "10:30:45" := by
  refine ⟨?_, ?_, by decide⟩
  · intro expression
    unfold parseModifiers
    rw [parseModifiersAux_customFormat]
    intro m hm
    exact no_colon_not_fmtPrefix m.data
      (parseVariableExpression_modifiers_no_colon expression m hm)
  · intro pattern
    unfold parseModifiers parseModifiersAux
    have hdata : ("fmt:" ++ pattern).data = 'f' :: 'm' :: 't' :: ':' :: pattern.data := by
      rw [String.data_append]; rfl
    obtain ⟨h1, h2, h3, h4, h5, h6, h7, h8⟩ :=
      fmtHead_not_recognized ("fmt:" ++ pattern) 'f' ('m' :: 't' :: ':' :: pattern.data)
        hdata (by decide)
    have hpre : "fmt:".data.isPrefixOf ("fmt:" ++ pattern).data = true := by
      rw [String.data_append]
      exact List.isPrefixOf_iff_prefix.mpr (List.prefix_append _ _)
    unfold parseModifierStep
    simp only [h1, h2, h3, h4, h5, h6, h7, h8, hpre, if_true, if_false, ite_true, ite_false,
      if_neg, hdata]
    have : ('f' :: 'm' :: 't' :: ':' :: pattern.data).drop 4 = pattern.data := rfl
    simp [this]
    rfl

/-- `resolveBuiltin` produces a value exactly when the lowercased name
is a key of the handler table. -/
theorem resolveBuiltin_isSome_iff (name : String) (modifiers : List String) (env : Env) :
    (resolveBuiltin name modifiers env).isSome = true ↔
      isBuiltinVariable (toLowerStr name) = true := by
  unfold resolveBuiltin isBuiltinVariable builtinNames
  rcases h1 : decide (toLowerStr name = "now" ∨ toLowerStr name = "timestamp") with _ | _ <;>
    rcases h2 : decide (toLowerStr name = "uuid") with _ | _ <;>
    rcases h3 : decide (toLowerStr name = "random" ∨ toLowerStr name = "rand") with _ | _ <;>
    simp_all

/-- The reserved names are already lowercase. -/
theorem builtin_toLower_fixed (name : String) (h : isBuiltinVariable name = true) :
    toLowerStr name = name := by
  unfold isBuiltinVariable builtinNames at h
  simp only [List.mem_cons, List.not_mem_nil, or_false, decide_eq_true_eq] at h
  rcases h with rfl | rfl | rfl | rfl | rfl <;> decide

/-- Builtin dispatch of the replacement callback: when the parsed name
passes the (case-sensitive) membership test, the resolver value is
returned. -/
theorem substituteMatch_builtin (vars : VarMap) (env : Env) (expression : String)
    (h : isBuiltinVariable (parseVariableExpression expression).1 = true) :
    ∃ s, resolveBuiltin (parseVariableExpression expression).1
        (parseVariableExpression expression).2 env = some s ∧
      substituteMatch vars env expression = s := by
  have hsome : (resolveBuiltin (parseVariableExpression expression).1
      (parseVariableExpression expression).2 env).isSome = true := by
    rw [resolveBuiltin_isSome_iff, builtin_toLower_fixed _ h]
    exact h
  obtain ⟨s, hs⟩ := Option.isSome_iff_exists.mp hsome
  exact ⟨s, hs, by simp [substituteMatch, h, hs]⟩

/-- Variable dispatch of the replacement callback: a non-builtin name
with no modifiers that is a key of the map is replaced by its value. -/
theorem substituteMatch_variable (vars : VarMap) (env : Env) (expression : String)
    (h : isBuiltinVariable (parseVariableExpression expression).1 = false)
    (hmods : (parseVariableExpression expression).2 = [])
    (hkey : hasVar vars (parseVariableExpression expression).1 = true) :
    substituteMatch vars env expression = getVar vars (parseVariableExpression expression).1 := by
  simp [substituteMatch, h, hmods, hkey]

/-- Keep dispatch of the replacement callback: a non-builtin name with a
non-empty modifier list, or absent from the map, is left verbatim,
braces included. -/
theorem substituteMatch_keep (vars : VarMap) (env : Env) (expression : String)
    (h : isBuiltinVariable (parseVariableExpression expression).1 = false)
    (hmiss : (parseVariableExpression expression).2 ≠ [] ∨
      hasVar vars (parseVariableExpression expression).1 = false) :
    substituteMatch vars env expression = "\x7b" ++ expression ++ "\x7d" := by
  rcases hmiss with hne | hno
  · simp [substituteMatch, h, hne]
  · simp [substituteMatch, h, hno]

/-- **C1.** Dispatch of one matched expression: a name passing the
builtin membership test is always resolved through the builtin resolver
(shadowing any user variable of the same name, for *every* variable
map); a non-builtin name is replaced by the map's value exactly when its
modifier list is empty and it is a key of the map, and a non-builtin
name with a non-empty modifier list is kept verbatim, braces included. -/
theorem substituteMatch_dispatch (vars : VarMap) (env : Env) (expression : String) :
    (isBuiltinVariable (parseVariableExpression expression).1 = true →
      ∃ s, resolveBuiltin (parseVariableExpression expression).1
          (parseVariableExpression expression).2 env = some s ∧
        substituteMatch vars env expression = s) ∧
    (isBuiltinVariable (parseVariableExpression expression).1 = false →
      (((parseVariableExpression expression).2 = [] ∧
          hasVar vars (parseVariableExpression expression).1 = true) →
        substituteMatch vars env expression =
          getVar vars (parseVariableExpression expression).1) ∧
      (((parseVariableExpression expression).2 ≠ [] ∨
          hasVar vars (parseVariableExpression expression).1 = false) →
        substituteMatch vars env expression = "\x7b" ++ expression ++ "\x7d")) := by
  refine ⟨substituteMatch_builtin vars env expression, fun h => ⟨fun hk => ?_, fun hm => ?_⟩⟩
  · exact substituteMatch_variable vars env expression h hk.1 hk.2
  · exact substituteMatch_keep vars env expression h hm

/-- The loop body is the identity when the string already equals the
previous pass's output. -/
theorem substLoop_self (vars : VarMap) (env : Env) (n : Nat) (x : String) :
    substLoop vars env n x x = x := by
  cases n <;> simp [substLoop]

/-- A pass-fixed string exits the loop unchanged. -/
theorem substLoop_fixed (vars : VarMap) (env : Env) :
    ∀ (n : Nat) (prev cur : String), onePass vars env cur = cur →
      substLoop vars env n prev cur = cur := by
  intro n
  induction n with
  | zero => intro prev cur _; rfl
  | succ n ih =>
    intro prev cur hfix
    by_cases h : cur = prev
    · simp [substLoop, h]
    · simp only [substLoop, if_neg h, hfix]
      exact substLoop_self vars env n cur

/-- The loop's result is some iterate of the pass, bounded by the
remaining iteration budget. -/
theorem substLoop_iterates (vars : VarMap) (env : Env) :
    ∀ (n : Nat) (prev cur : String),
      ∃ k ≤ n, substLoop vars env n prev cur = (onePass vars env)^[k] cur := by
  intro n
  induction n with
  | zero => intro prev cur; exact ⟨0, le_rfl, rfl⟩
  | succ n ih =>
    intro prev cur
    by_cases h : cur = prev
    · exact ⟨0, Nat.zero_le _, by simp [substLoop, h]⟩
    · obtain ⟨k, hk, heq⟩ := ih cur (onePass vars env cur)
      refine ⟨k + 1, Nat.succ_le_succ hk, ?_⟩
      rw [Function.iterate_succ_apply]
      simp only [substLoop, if_neg h]
      exact heq

/-- Once a pass produces no change (at index `j` within the budget), the
loop's result is that stable iterate. -/
theorem substLoop_stabilized (vars : VarMap) (env : Env) :
    ∀ (j n : Nat) (prev cur : String), j < n → prev ≠ cur →
      (onePass vars env)^[j + 1] cur = (onePass vars env)^[j] cur →
      substLoop vars env n prev cur = (onePass vars env)^[j] cur := by
  intro j
  induction j with
  | zero =>
    intro n prev cur hn hne hstab
    simp only [Function.iterate_one, Function.iterate_zero, id_eq] at hstab ⊢
    exact substLoop_fixed vars env n prev cur hstab
  | succ j ih =>
    intro n prev cur hn hne hstab
    obtain ⟨n', rfl⟩ : ∃ n', n = n' + 1 := ⟨n - 1, by omega⟩
    simp only [substLoop, if_neg (Ne.symm hne)]
    by_cases hfc : onePass vars env cur = cur
    · rw [hfc, substLoop_self, Function.iterate_fixed hfc]
    · have hstab' : (onePass vars env)^[j + 1] (onePass vars env cur) =
          (onePass vars env)^[j] (onePass vars env cur) := by
        rw [← Function.iterate_succ_apply, ← Function.iterate_succ_apply]
        exact hstab
      rw [ih n' cur (onePass vars env cur) (by omega) (Ne.symm hfc) hstab',
        ← Function.iterate_succ_apply]

/-- When no pass within the budget reaches a fixed point, the loop runs
the full budget. -/
theorem substLoop_cap (vars : VarMap) (env : Env) :
    ∀ (n : Nat) (prev cur : String), prev ≠ cur →
      (∀ j < n, (onePass vars env)^[j + 1] cur ≠ (onePass vars env)^[j] cur) →
      substLoop vars env n prev cur = (onePass vars env)^[n] cur := by
  intro n
  induction n with
  | zero => intro prev cur _ _; rfl
  | succ n ih =>
    intro prev cur hne hnofix
    simp only [substLoop, if_neg (Ne.symm hne)]
    have h0 : onePass vars env cur ≠ cur := by
      have := hnofix 0 (Nat.succ_pos n)
      simpa using this
    rw [ih cur (onePass vars env cur) (Ne.symm h0)
      (fun j hj => by
        rw [← Function.iterate_succ_apply, ← Function.iterate_succ_apply]
        exact hnofix (j + 1) (Nat.succ_lt_succ hj)),
      ← Function.iterate_succ_apply]

/-- A pass over the empty template is the empty string. -/
theorem onePass_empty (vars : VarMap) (env : Env) : onePass vars env "" = "" := rfl

/-- **C4.** For every template and variable map, `substituteVariables`
is a total function whose result is an iterate of the single-pass
transformation of index at most 10 — even under cyclic variable
definitions no error is raised; the loop stops as soon as a pass leaves
the string unchanged, and when no pass within the cap stabilizes, the
result is exactly the state after the 10th pass. -/
theorem substituteVariables_terminates (template : String) (vars : VarMap) (env : Env) :
    (∃ k ≤ 10, substituteVariables template vars env = (onePass vars env)^[k] template) ∧
    (∀ j < 10, (onePass vars env)^[j + 1] template = (onePass vars env)^[j] template →
      substituteVariables template vars env = (onePass vars env)^[j] template) ∧
    ((∀ j < 10, (onePass vars env)^[j + 1] template ≠ (onePass vars env)^[j] template) →
      substituteVariables template vars env = (onePass vars env)^[10] template) := by
  unfold substituteVariables
  by_cases hempty : template = ""
  · subst hempty
    have hfix : onePass vars env "" = "" := onePass_empty vars env
    refine ⟨⟨0, by omega, substLoop_self vars env 10 ""⟩, ?_, ?_⟩
    · intro j _ _
      rw [substLoop_self, Function.iterate_fixed hfix]
    · intro hnofix
      exact absurd (Function.iterate_fixed hfix 1) (by simpa using hnofix 0 (by omega))
  · have hne : "" ≠ template := fun h => hempty h.symm
    exact ⟨substLoop_iterates vars env 10 "" template,
      fun j hj hstab => substLoop_stabilized vars env j 10 "" template hj hne hstab,
      fun hnofix => substLoop_cap vars env 10 "" template hne hnofix⟩

/-- **C5.** Malformed or unrecognized input degrades to a safe default
(the engine is total, so no input raises): an unknown variable leaves
its token verbatim with braces intact, an unrecognized time modifier
leaves the parsed-modifier state untouched (falling back to the
builtin's defaults), and a modifier that fails the range pattern leaves
the random range untouched. -/
theorem resolve_degrades_safely :
    (∀ (vars : VarMap) (env : Env) (expression : String),
      isBuiltinVariable (parseVariableExpression expression).1 = false →
      ((parseVariableExpression expression).2 ≠ [] ∨
        hasVar vars (parseVariableExpression expression).1 = false) →
      substituteMatch vars env expression = "\x7b" ++ expression ++ "\x7d") ∧
    (∀ (acc : ParsedModifiers) (m : String),
      toLowerStr m ≠ "utc" → toLowerStr m ≠ "local" → toLowerStr m ≠ "iso" →
      toLowerStr m ≠ "unix" → toLowerStr m ≠ "unixms" → toLowerStr m ≠ "date" →
      toLowerStr m ≠ "time" → toLowerStr m ≠ "datetime" →
      "fmt:".data.isPrefixOf m.data = false → parseOffset m = none →
      parseModifierStep acc m = acc) ∧
    (∀ (m : String) (mods : List String), rangeMatch m = none →
      randRange (m :: mods) = randRange mods) := by
  refine ⟨substituteMatch_keep, ?_, ?_⟩
  · intro acc m h1 h2 h3 h4 h5 h6 h7 h8 hfmt hoff
    simp [parseModifierStep, h1, h2, h3, h4, h5, h6, h7, h8, hfmt, hoff]
  · intro m mods h
    simp [randRange, h]

/-- **C7.** The random resolver draws from the inclusive range selected
by the first modifier matching `(\d+)-(\d+)` — default `[0,100]` when
none matches, later matches ignored — and, provided `min ≤ max`, the
rendered integer lies within that range for every draw `r ∈ [0,1)`. -/
theorem handleRandom_within_range (modifiers : List String) (r : ℚ)
    (h0 : 0 ≤ r) (h1 : r < 1)
    (hminmax : (randRange modifiers).1 ≤ (randRange modifiers).2) :
    handleRandom modifiers r = String.mk (intDigits (handleRandomVal modifiers r)) ∧
    (randRange modifiers).1 ≤ handleRandomVal modifiers r ∧
    handleRandomVal modifiers r ≤ (randRange modifiers).2 ∧
    randRange [] = (0, 100) ∧
    (∀ (m : String) (mods : List String) (p : Int × Int),
      rangeMatch m = some p → randRange (m :: mods) = p) := by
  have hspan : (0 : ℚ) ≤ ((randRange modifiers).2 : ℚ) - ((randRange modifiers).1 : ℚ) + 1 := by
    have : ((randRange modifiers).1 : ℚ) ≤ ((randRange modifiers).2 : ℚ) := by
      exact_mod_cast hminmax
    linarith
  refine ⟨rfl, ?_, ?_, rfl, ?_⟩
  · rw [handleRandomVal, Int.le_floor]
    have := mul_nonneg h0 hspan
    linarith
  · have hlt : handleRandomVal modifiers r < (randRange modifiers).2 + 1 := by
      rw [handleRandomVal, Int.floor_lt]
      have := mul_lt_mul_of_pos_right h1
        (show (0 : ℚ) < ((randRange modifiers).2 : ℚ) - ((randRange modifiers).1 : ℚ) + 1 by
          have : ((randRange modifiers).1 : ℚ) ≤ ((randRange modifiers).2 : ℚ) := by
            exact_mod_cast hminmax
          linarith)
      push_cast at this ⊢
      linarith
    omega
  · intro m mods p h
    simp [randRange, h]

/-- Every name collected by the extraction loop failed the builtin
membership test. -/
theorem extractAux_not_builtin :
    ∀ (fuel : Nat) (cs : List Char) (n : String), n ∈ extractAux fuel cs →
      isBuiltinVariable n = false := by
  intro fuel
  induction fuel with
  | zero => intro cs n h; cases cs <;> simp [extractAux] at h
  | succ fuel ih =>
    intro cs n h
    cases cs with
    | nil => simp [extractAux] at h
    | cons c cs' =>
      rw [extractAux] at h
      split at h
      · split at h
        · split at h
          · exact ih _ n h
          · rcases List.mem_cons.mp h with rfl | h'
            · simp_all
            · exact ih _ n h'
        · exact ih cs' n h
      · exact ih cs' n h

/-- **C9.** `usedVariableNames` lists the non-builtin expression names
in template order with duplicates preserved and every builtin excluded,
and `missingVariableNames` is exactly the subsequence of those names
that are not keys of the variable map. -/
theorem usedVariableNames_spec :
    extractVariableNames "{a}{b}{c}" = ["a", "b", "c"] ∧
    extractVariableNames "{a}{now}{b}{a}" = ["a", "b", "a"] ∧
    (∀ (template n : String), n ∈ extractVariableNames template →
      isBuiltinVariable n = false) ∧
    (∀ (template : String) (vars : VarMap),
      getMissingVariables template vars =
        (extractVariableNames template).filter
          (fun name => ¬ (hasVar vars name = true))) :=
  ⟨by decide, by decide,
    fun _ n h => extractAux_not_builtin _ _ n h,
    fun _ _ => rfl⟩

/-- A 16-way draw renders as a lowercase hex digit. -/
theorem hexChar_isHexLower : ∀ v : Fin 16, isHexLower (hexChar v.val) = true := by decide

/-- The variant transformation `(r & 0x3) | 0x8` renders as `8|9|a|b`. -/
theorem hexChar_variant :
    ∀ v : Fin 16,
      hexChar (Nat.lor (Nat.land v.val 3) 8) ∈ (['8', '9', 'a', 'b'] : List Char) := by decide

/-- The variant character is in particular a hex digit. -/
theorem hexChar_variant_isHexLower :
    ∀ v : Fin 16, isHexLower (hexChar (Nat.lor (Nat.land v.val 3) 8)) = true := by decide

/-- The character list produced by the UUID resolver, made explicit. -/
theorem handleUuid_chars (modifiers : List String) (draws : Nat → Fin 16) :
    (handleUuid modifiers draws).data =
      [hexChar ((draws 0).val),
       hexChar ((draws 1).val),
       hexChar ((draws 2).val),
       hexChar ((draws 3).val),
       hexChar ((draws 4).val),
       hexChar ((draws 5).val),
       hexChar ((draws 6).val),
       hexChar ((draws 7).val),
       '-',
       hexChar ((draws 8).val),
       hexChar ((draws 9).val),
       hexChar ((draws 10).val),
       hexChar ((draws 11).val),
       '-',
       '4',
       hexChar ((draws 12).val),
       hexChar ((draws 13).val),
       hexChar ((draws 14).val),
       '-',
       hexChar (Nat.lor (Nat.land ((draws 15).val) 3) 8),
       hexChar ((draws 16).val),
       hexChar ((draws 17).val),
       hexChar ((draws 18).val),
       '-',
       hexChar ((draws 19).val),
       hexChar ((draws 20).val),
       hexChar ((draws 21).val),
       hexChar ((draws 22).val),
       hexChar ((draws 23).val),
       hexChar ((draws 24).val),
       hexChar ((draws 25).val),
       hexChar ((draws 26).val),
       hexChar ((draws 27).val),
       hexChar ((draws 28).val),
       hexChar ((draws 29).val),
       hexChar ((draws 30).val)] := rfl

/-- **C8.** For every draw stream and every (ignored) modifier list, the
UUID resolver produces a 36-character string in the canonical
`8-4-4-4-12` hyphenated lowercase-hex layout whose version nibble is
`4` and whose variant nibble is one of `8`, `9`, `a`, `b`. -/
theorem handleUuid_canonical (modifiers : List String) (draws : Nat → Fin 16) :
    (handleUuid modifiers draws).length = 36 ∧
    (handleUuid modifiers draws).data.getD 8 ' ' = '-' ∧
    (handleUuid modifiers draws).data.getD 13 ' ' = '-' ∧
    (handleUuid modifiers draws).data.getD 18 ' ' = '-' ∧
    (handleUuid modifiers draws).data.getD 23 ' ' = '-' ∧
    (handleUuid modifiers draws).data.getD 14 ' ' = '4' ∧
    (handleUuid modifiers draws).data.getD 19 ' ' ∈ (['8', '9', 'a', 'b'] : List Char) ∧
    (∀ i < 36, i ∉ ([8, 13, 18, 23] : List Nat) →
      isHexLower ((handleUuid modifiers draws).data.getD i ' ') = true) := by
  have hlen : (handleUuid modifiers draws).length = 36 := by
    show (handleUuid modifiers draws).data.length = 36
    rw [handleUuid_chars]
    rfl
  refine ⟨hlen, ?_, ?_, ?_, ?_, ?_, ?_, ?_⟩ <;> rw [handleUuid_chars]
  · rfl
  · rfl
  · rfl
  · rfl
  · rfl
  · exact hexChar_variant (draws 15)
  · intro i hi hnot
    interval_cases i
    · exact hexChar_isHexLower (draws 0)
    · exact hexChar_isHexLower (draws 1)
    · exact hexChar_isHexLower (draws 2)
    · exact hexChar_isHexLower (draws 3)
    · exact hexChar_isHexLower (draws 4)
    · exact hexChar_isHexLower (draws 5)
    · exact hexChar_isHexLower (draws 6)
    · exact hexChar_isHexLower (draws 7)
    · exact absurd (by decide) hnot
    · exact hexChar_isHexLower (draws 8)
    · exact hexChar_isHexLower (draws 9)
    · exact hexChar_isHexLower (draws 10)
    · exact hexChar_isHexLower (draws 11)
    · exact absurd (by decide) hnot
    · show isHexLower '4' = true
      decide
    · exact hexChar_isHexLower (draws 12)
    · exact hexChar_isHexLower (draws 13)
    · exact hexChar_isHexLower (draws 14)
    · exact absurd (by decide) hnot
    · exact hexChar_variant_isHexLower (draws 15)
    · exact hexChar_isHexLower (draws 16)
    · exact hexChar_isHexLower (draws 17)
    · exact hexChar_isHexLower (draws 18)
    · exact absurd (by decide) hnot
    · exact hexChar_isHexLower (draws 19)
    · exact hexChar_isHexLower (draws 20)
    · exact hexChar_isHexLower (draws 21)
    · exact hexChar_isHexLower (draws 22)
    · exact hexChar_isHexLower (draws 23)
    · exact hexChar_isHexLower (draws 24)
    · exact hexChar_isHexLower (draws 25)
    · exact hexChar_isHexLower (draws 26)
    · exact hexChar_isHexLower (draws 27)
    · exact hexChar_isHexLower (draws 28)
    · exact hexChar_isHexLower (draws 29)
    · exact hexChar_isHexLower (draws 30)

/-- Digit characters for digits. -/
theorem digitChar_isDigit : ∀ n < 10, (digitChar n).isDigit = true := by decide

/-- The decimal rendering loop emits only digit characters. -/
theorem natDigitsAux_isDigit :
    ∀ (fuel n : Nat) (acc : List Char), (∀ c ∈ acc, c.isDigit = true) →
      ∀ c ∈ natDigitsAux fuel n acc, c.isDigit = true := by
  intro fuel
  induction fuel with
  | zero => intro n acc hacc c hc; exact hacc c hc
  | succ fuel ih =>
    intro n acc hacc c hc
    rw [natDigitsAux] at hc
    split at hc
    · rcases List.mem_cons.mp hc with rfl | h
      · exact digitChar_isDigit n (by omega)
      · exact hacc c h
    · refine ih (n / 10) _ ?_ c hc
      intro d hd
      rcases List.mem_cons.mp hd with rfl | h
      · exact digitChar_isDigit _ (Nat.mod_lt n (by omega))
      · exact hacc d h

/-- Decimal renderings consist of digit characters. -/
theorem natDigits_isDigit (n : Nat) : ∀ c ∈ natDigits n, c.isDigit = true :=
  natDigitsAux_isDigit (n + 1) n [] (by simp)

/-- Padded decimal renderings consist of digit characters. -/
theorem padNat_isDigit (w n : Nat) : ∀ c ∈ padNat w n, c.isDigit = true := by
  intro c hc
  rcases List.mem_append.mp hc with h | h
  · rw [List.eq_of_mem_replicate h]; rfl
  · exact natDigits_isDigit n c h

/-- A digit character is not `'Z'`. -/
theorem isDigit_ne_Z (c : Char) (h : c.isDigit = true) : c ≠ 'Z' := by
  intro heq
  rw [heq] at h
  exact absurd h (by decide)

/-- Concatenation preserves `'Z'`-freedom. -/
theorem ne_Z_append {l₁ l₂ : List Char} (h₁ : ∀ c ∈ l₁, c ≠ 'Z')
    (h₂ : ∀ c ∈ l₂, c ≠ 'Z') : ∀ c ∈ l₁ ++ l₂, c ≠ 'Z' := by
  intro c hc
  rcases List.mem_append.mp hc with h | h
  · exact h₁ c h
  · exact h₂ c h

/-- Prepending a non-`'Z'` character preserves `'Z'`-freedom. -/
theorem ne_Z_cons {c₀ : Char} {l : List Char} (h₀ : c₀ ≠ 'Z')
    (h : ∀ c ∈ l, c ≠ 'Z') : ∀ c ∈ c₀ :: l, c ≠ 'Z' := by
  intro c hc
  rcases List.mem_cons.mp hc with rfl | hm
  · exact h₀
  · exact h c hm

/-- Padded decimal renderings contain no `'Z'`. -/
theorem padNat_ne_Z (w n : Nat) : ∀ c ∈ padNat w n, c ≠ 'Z' :=
  fun c h => isDigit_ne_Z c (padNat_isDigit w n c h)

/-- The year component of the ISO string contains no `'Z'`. -/
theorem isoYear_ne_Z (y : Int) : ∀ c ∈ isoYear y, c ≠ 'Z' := by
  unfold isoYear
  split
  · exact ne_Z_cons (by decide) (padNat_ne_Z 6 _)
  · split
    · exact ne_Z_cons (by decide) (padNat_ne_Z 6 _)
    · exact padNat_ne_Z 4 _

/-- No character before the terminating `'Z'` of an ISO string is `'Z'`. -/
theorem isoPrefix_ne_Z (ms : Int) :
    ∀ c ∈ isoDatePart ms ++ 'T' :: isoTimePart ms
        ++ '.' :: padNat 3 (getUTCMilliseconds ms).toNat, c ≠ 'Z' := by
  simp only [isoDatePart, isoTimePart, List.append_assoc, List.cons_append]
  refine ne_Z_append (isoYear_ne_Z _) ?_
  refine ne_Z_cons (by decide) ?_
  refine ne_Z_append (padNat_ne_Z 2 _) ?_
  refine ne_Z_cons (by decide) ?_
  refine ne_Z_append (padNat_ne_Z 2 _) ?_
  refine ne_Z_cons (by decide) ?_
  refine ne_Z_append (padNat_ne_Z 2 _) ?_
  refine ne_Z_cons (by decide) ?_
  refine ne_Z_append (padNat_ne_Z 2 _) ?_
  refine ne_Z_cons (by decide) ?_
  refine ne_Z_append (padNat_ne_Z 2 _) ?_
  exact ne_Z_cons (by decide) (padNat_ne_Z 3 _)

/-- Removing the first occurrence of `'Z'` from a list that ends in
`'Z'` and contains no earlier `'Z'` removes exactly the last
character. -/
theorem replaceFirst_trailing_Z :
    ∀ (p : List Char), (∀ c ∈ p, c ≠ 'Z') →
      replaceFirst (p ++ ['Z']) ['Z'] [] = p := by
  intro p
  induction p with
  | nil => intro _; rfl
  | cons c cs ih =>
    intro h
    have hc : c ≠ 'Z' := h c (List.mem_cons_self c cs)
    rw [List.cons_append, replaceFirst, if_neg,
      ih (fun d hd => h d (List.mem_cons_of_mem c hd))]
    intro hcontra
    simp only [List.isPrefixOf, Bool.and_eq_true, beq_iff_eq] at hcontra
    exact hc hcontra.1.symm

/-- The modifier loop processes an appended modifier last. -/
theorem parseModifiersAux_append (mods : List String) (m : String) :
    ∀ acc, parseModifiersAux acc (mods ++ [m]) =
      parseModifierStep (parseModifiersAux acc mods) m := by
  induction mods with
  | nil => intro acc; rfl
  | cons x xs ih =>
    intro acc
    rw [List.cons_append, parseModifiersAux, parseModifiersAux, ih]

/-- A step on a modifier that is neither `utc` nor `local` leaves the
timezone untouched. -/
theorem parseModifierStep_timezone (acc : ParsedModifiers) (m : String)
    (h1 : toLowerStr m ≠ "utc") (h2 : toLowerStr m ≠ "local") :
    (parseModifierStep acc m).timezone = acc.timezone := by
  unfold parseModifierStep
  rw [if_neg h1, if_neg h2]
  split
  · rfl
  · split
    · rfl
    · split
      · rfl
      · split
        · rfl
        · split
          · rfl
          · split
            · rfl
            · split
              · rfl
              · split <;> rfl

/-- Without a timezone modifier the parsed timezone stays unset. -/
theorem parseModifiersAux_timezone_none (mods : List String) :
    ∀ acc, (∀ m ∈ mods, toLowerStr m ≠ "utc" ∧ toLowerStr m ≠ "local") →
      (parseModifiersAux acc mods).timezone = acc.timezone := by
  induction mods with
  | nil => intro acc _; rfl
  | cons x xs ih =>
    intro acc h
    rw [parseModifiersAux, ih _ (fun m hm => h m (List.mem_cons_of_mem x hm)),
      parseModifierStep_timezone acc x (h x (List.mem_cons_self x xs)).1
        (h x (List.mem_cons_self x xs)).2]

/-- **C10.** When the modifier list contains neither `utc` nor `local`,
the time resolver behaves exactly as if `local` had been given; in
particular, for every clock reading, resolving with no modifiers
returns the UTC ISO-8601-with-milliseconds string with only its
trailing `Z` removed — not the full UTC ISO string, and not a genuinely
timezone-converted rendering. -/
theorem handleNow_local_default (nowMs : Int) (modifiers : List String)
    (h : ∀ m ∈ modifiers, toLowerStr m ≠ "utc" ∧ toLowerStr m ≠ "local") :
    handleNow modifiers nowMs = handleNow (modifiers ++ ["local"]) nowMs ∧
    handleNow [] nowMs = String.mk (toISOString nowMs).data.dropLast ∧
    handleNow [] nowMs ≠ toISOString nowMs := by
  have htz : (parseModifiers modifiers).timezone = none :=
    parseModifiersAux_timezone_none modifiers {} h
  have happend : parseModifiers (modifiers ++ ["local"]) =
      { parseModifiers modifiers with timezone := some TZ.loc } := by
    unfold parseModifiers
    rw [parseModifiersAux_append modifiers "local" {}]
    unfold parseModifierStep
    rw [if_neg (by decide), if_pos (by decide)]
  have hdata : (toISOString nowMs).data =
      (isoDatePart nowMs ++ 'T' :: isoTimePart nowMs
        ++ '.' :: padNat 3 (getUTCMilliseconds nowMs).toNat) ++ ['Z'] := by
    simp [toISOString, List.append_assoc, List.cons_append]
  have hstripped : handleNow [] nowMs = String.mk (toISOString nowMs).data.dropLast := by
    show String.mk (replaceFirst (toISOString nowMs).data ['Z'] []) =
      String.mk (toISOString nowMs).data.dropLast
    rw [hdata, replaceFirst_trailing_Z _ (isoPrefix_ne_Z nowMs), List.dropLast_concat]
  refine ⟨?_, hstripped, ?_⟩
  · unfold handleNow
    rw [happend]
    simp [htz]
  · rw [hstripped]
    intro heq
    have hd := congrArg String.data heq
    simp only [] at hd
    rw [hdata, List.dropLast_concat] at hd
    have := congrArg List.length hd
    simp at this

/-! ## Witnesses: the theorems above applied at concrete inputs -/

/-- Witness for the dispatch theorem: `{now}` is resolved through the
builtin resolver even though the map defines a variable `now`. -/
theorem substituteMatch_dispatch_witness :
    ∃ s, resolveBuiltin (parseVariableExpression "now").1
        (parseVariableExpression "now").2 fixedEnv = some s ∧
      substituteMatch [("now", "shadowed")] fixedEnv "now" = s :=
  (substituteMatch_dispatch [("now", "shadowed")] fixedEnv "now").1 (by decide)

/-- Witness for the termination theorem: under the cyclic map
`a ↦ {b}, b ↦ {a}` the full 10-pass budget is used and the result is
the 10th iterate. -/
theorem substituteVariables_terminates_witness :
    substituteVariables "{a}" [("a", "{b}"), ("b", "{a}")] fixedEnv =
      (onePass [("a", "{b}"), ("b", "{a}")] fixedEnv)^[10] "{a}" :=
  (substituteVariables_terminates "{a}" [("a", "{b}"), ("b", "{a}")] fixedEnv).2.2
    (by decide)

/-- Witness for the safe-degradation theorem: an unknown variable's
token is left verbatim. -/
theorem resolve_degrades_safely_witness :
    substituteMatch [] fixedEnv "unknown_var" = "\x7b" ++ "unknown_var" ++ "\x7d" :=
  resolve_degrades_safely.1 [] fixedEnv "unknown_var" (by decide) (by decide)

/-- Witness for the random-range theorem at range `1-10` and draw `0`. -/
theorem handleRandom_within_range_witness :
    (randRange ["1-10"]).1 ≤ handleRandomVal ["1-10"] 0 ∧
    handleRandomVal ["1-10"] 0 ≤ (randRange ["1-10"]).2 :=
  ⟨(handleRandom_within_range ["1-10"] 0 (le_refl 0) zero_lt_one (by decide)).2.1,
   (handleRandom_within_range ["1-10"] 0 (le_refl 0) zero_lt_one (by decide)).2.2.1⟩

/-- Witness for the UUID layout theorem at the all-zero draw stream. -/
theorem handleUuid_canonical_witness :
    isHexLower ((handleUuid [] (fun _ => (0 : Fin 16))).data.getD 0 ' ') = true :=
  (handleUuid_canonical [] (fun _ => (0 : Fin 16))).2.2.2.2.2.2.2 0 (by decide) (by decide)

/-- Witness for the used-variables theorem: the collected name `a` is
not a builtin. -/
theorem usedVariableNames_spec_witness : isBuiltinVariable "a" = false :=
  usedVariableNames_spec.2.2.1 "{a}" "a" (by decide)

/-- Witness for the local-default theorem at the fixed clock with a
timezone-free modifier list. -/
theorem handleNow_local_default_witness :
    handleNow ["iso"] fixedClock = handleNow (["iso"] ++ ["local"]) fixedClock :=
  (handleNow_local_default fixedClock ["iso"] (by decide)).1

end TopicLab
